import Mathlib

/-!
Verification of the Elrond/MultiversX Ledger hardware-app adapter
(`src/Elrond.ts`, with the legacy `src/Elrond.js` snapshot where noted).

Modelling conventions:
* a byte buffer is a `List Nat` whose elements are `< 256` (stated as a
  hypothesis where a theorem needs it);
* a JS string is modelled as the `List Nat` of its code units
  (`Buffer.toString "ascii"` masks each byte to 7 bits, `toString "hex"`
  yields lowercase hex digit code units);
* the transport collaborator is a pure oracle `Apdu → List Nat` giving the
  reply to each sent command; an operation returns the list of commands it
  sent together with its decoded result;
* fallible operations return `Except String α` with the source's error
  messages;
* JS 32-bit bitwise arithmetic is modelled on `Nat` bit patterns with a
  final signed reinterpretation (`toInt32`), which agrees with JS when every
  intermediate pattern fits in 32 bits, as is the case for byte inputs.
-/

set_option maxRecDepth 8000

namespace Elrond

def CLA : Nat := 0xed
def SIGN_RAW_TX_INS : Nat := 0x04
def SIGN_HASH_TX_INS : Nat := 0x07
def SIGN_MESSAGE_INS : Nat := 0x06
def PROVIDE_ESDT_INFO_INS : Nat := 0x08
def GET_ADDRESS_AUTH_TOKEN_INS : Nat := 0x09

def ACTIVE_SIGNERS : List Nat :=
  [SIGN_RAW_TX_INS, SIGN_HASH_TX_INS, SIGN_MESSAGE_INS, GET_ADDRESS_AUTH_TOKEN_INS]

/-- One APDU command as handed to `transport.send`. -/
structure Apdu where
  cla : Nat
  ins : Nat
  p1 : Nat
  p2 : Nat
  data : List Nat
deriving Repr, DecidableEq

/-- Node `Buffer.toString "ascii"`: each byte is masked to its low 7 bits. -/
def asciiDecode (bytes : List Nat) : List Nat :=
  bytes.map (fun b => b % 128)

/-- Code unit of one lowercase hex digit. -/
def hexDigitCode (n : Nat) : Nat :=
  if n < 10 then 48 + n else 87 + n

/-- Node `Buffer.toString "hex"`: two lowercase hex digits per byte. -/
def hexEncode (bytes : List Nat) : List Nat :=
  (bytes.map (fun b => [hexDigitCode (b / 16 % 16), hexDigitCode (b % 16)])).flatten

/-- Node `writeUInt32BE`: big-endian bytes of an unsigned 32-bit value. -/
def uint32BE (n : Nat) : List Nat :=
  [n / 16777216 % 256, n / 65536 % 256, n / 256 % 256, n % 256]

/-- Node `writeInt32BE`: big-endian two's-complement bytes of a signed 32-bit value. -/
def int32BE (n : Int) : List Nat :=
  uint32BE (n.emod 4294967296).toNat

/-- JS `ToInt32`: reinterpret a 32-bit pattern as a signed integer. -/
def toInt32 (n : Nat) : Int :=
  if n % 4294967296 < 2147483648 then ((n % 4294967296 : Nat) : Int)
  else ((n % 4294967296 : Nat) : Int) - 4294967296

/-- The chunking loop in `sign` (`Elrond.ts` lines 147-169): walk the
payload, emitting frames of at most 150 bytes; `p1` is `0x00` for the first
frame and `0x80` for every continuation frame. -/
def buildApdus (type : Nat) (isFirst : Bool) (message : List Nat) : List Apdu :=
  if h : message = [] then []
  else
    let hasMore := 150 < message.length
    let chunkSize := if hasMore then 150 else message.length
    { cla := CLA, ins := type, p1 := if isFirst then 0x00 else 0x80, p2 := 0x00,
      data := message.take chunkSize } ::
      buildApdus type false (message.drop chunkSize)
termination_by message.length
decreasing_by
  have hl : 0 < message.length := List.length_pos.mpr h
  simp only [List.length_drop]
  split <;> omega

theorem buildApdus_nil (type : Nat) (isFirst : Bool) :
    buildApdus type isFirst [] = [] := by
  unfold buildApdus
  simp

theorem buildApdus_cons (type : Nat) (isFirst : Bool) (message : List Nat)
    (h : message ≠ []) :
    buildApdus type isFirst message =
      { cla := CLA, ins := type, p1 := if isFirst then 0x00 else 0x80, p2 := 0x00,
        data := message.take (if 150 < message.length then 150 else message.length) } ::
      buildApdus type false
        (message.drop (if 150 < message.length then 150 else message.length)) := by
  conv_lhs => unfold buildApdus
  simp [h]

theorem buildApdus_small (type : Nat) (message : List Nat) (h : message ≠ [])
    (hlen : message.length ≤ 150) :
    buildApdus type true message =
      [{ cla := CLA, ins := type, p1 := 0x00, p2 := 0x00, data := message }] := by
  rw [buildApdus_cons type true message h]
  have h150 : ¬ 150 < message.length := by omega
  simp [h150, List.take_of_length_le, List.drop_length, buildApdus_nil]

/-- The send loop in `sign`: each frame is sent in order and only the last
reply is kept; with no frames the reply stays the empty buffer. -/
def runFrames (transport : Apdu → List Nat) (apdus : List Apdu) : List Nat :=
  apdus.foldl (fun _ apdu => transport apdu) []

/-- The function `handleAuthTokenResponse` (`Elrond.ts` lines 193-203).  Note the
source's guard uses `&&`: it rejects only when the length is wrong AND the
marker byte is wrong. -/
def handleAuthTokenResponse (response : List Nat) : Except String (List Nat) :=
  if response.length ≠ 129 ∧ response.getD 0 0 ≠ 126 then
    Except.error "invalid address and token signature received from ledger device"
  else
    let address := asciiDecode ((response.drop 1).take 62)
    let signature := hexEncode ((response.drop 63).take (response.length - 2 - 63))
    Except.ok (address ++ 124 :: signature)

/-- The function `sign` (`Elrond.ts` lines 142-191): guard the instruction, chunk the
payload, send every frame keeping the last reply, then decode it.  The
first component is the list of frames handed to the transport. -/
def sign (transport : Apdu → List Nat) (message : List Nat) (type : Nat) :
    List Apdu × Except String (List Nat) :=
  if type ∉ ACTIVE_SIGNERS then
    ([], Except.error ("invalid sign instruction called: " ++ toString type))
  else
    let apdus := buildApdus type true message
    let response := runFrames transport apdus
    if type = GET_ADDRESS_AUTH_TOKEN_INS then
      (apdus, handleAuthTokenResponse response)
    else if response.length ≠ 67 ∨ response.getD 0 0 ≠ 64 then
      (apdus, Except.error "invalid signature received from ledger device")
    else
      (apdus, Except.ok (hexEncode ((response.drop 1).take (response.length - 2 - 1))))

/-- JS `String.prototype.split` with a one-code-unit separator. -/
def splitOnSep (sep : Nat) : List Nat → List (List Nat)
  | [] => [[]]
  | c :: rest =>
      match splitOnSep sep rest with
      | [] => [[]]
      | part :: parts =>
          if c = sep then [] :: part :: parts else (c :: part) :: parts

/-- The `SigningPayload` built by `getAddressAndSignAuthToken`: a 12-byte
header (account, index, token length, each big-endian) followed by the
token bytes. -/
def authPayload (account : Int) (index : Nat) (token : List Nat) : List Nat :=
  (int32BE account ++ uint32BE index ++ uint32BE token.length) ++ token

/-- The function `getAddressAndSignAuthToken` (`Elrond.ts` lines 80-105): sign the auth
payload, then split the delimiter-joined result back into the address and
the signature. -/
def getAddressAndSignAuthToken (transport : Apdu → List Nat) (account : Int)
    (index : Nat) (token : List Nat) :
    List Apdu × Except String (List Nat × List Nat) :=
  let r := sign transport (authPayload account index token) GET_ADDRESS_AUTH_TOKEN_INS
  match r.2 with
  | Except.error e => (r.1, Except.error e)
  | Except.ok result =>
      let splitRes := splitOnSep 124 result
      (r.1, Except.ok (splitRes.getD 0 [], splitRes.getD 1 []))

/-- The final device reply seen by the auth-token signing path. -/
def authTokenFinalReply (transport : Apdu → List Nat) (account : Int)
    (index : Nat) (token : List Nat) : List Nat :=
  runFrames transport
    (buildApdus GET_ADDRESS_AUTH_TOKEN_INS true (authPayload account index token))

/-- Decimal code units of a byte value (JS number-to-string for `n < 1000`),
used by the version template literal. -/
def byteDecimal (n : Nat) : List Nat :=
  if n < 10 then [48 + n]
  else if n < 100 then [48 + n / 10, 48 + n % 10]
  else [48 + n / 100, 48 + n / 10 % 10, 48 + n % 10]

/-- The template literal producing the dotted version triple. -/
def versionString (b3 b4 b5 : Nat) : List Nat :=
  byteDecimal b3 ++ 46 :: (byteDecimal b4 ++ 46 :: byteDecimal b5)

/-- The function `getIntValueFromBytes` (`Elrond.ts` lines 135-140): JS 32-bit signed
bitwise recombination of the last four bytes of the buffer. -/
def getIntValueFromBytes (buffer : List Nat) : Int :=
  let n := buffer.length
  toInt32 (((buffer.getD (n - 1) 0 ||| buffer.getD (n - 2) 0 <<< 8) |||
      buffer.getD (n - 3) 0 <<< 16) ||| buffer.getD (n - 4) 0 <<< 24)

structure AppConfig where
  contractData : Nat
  accountIndex : Int
  addressIndex : Int
  version : List Nat
deriving Repr, DecidableEq

/-- The function `getAppConfiguration`, response decoding, `Elrond.ts` lines 107-133:
the extended 4-byte indices are read only from a 14-byte reply; every other
length leaves both indices 0. -/
def getAppConfigurationTs (response : List Nat) : AppConfig :=
  let accountIndex : Int :=
    if response.length = 14 then getIntValueFromBytes ((response.drop 6).take 4) else 0
  let addressIndex : Int :=
    if response.length = 14 then getIntValueFromBytes ((response.drop 10).take 4) else 0
  { contractData := response.getD 0 0,
    accountIndex := accountIndex,
    addressIndex := addressIndex,
    version := versionString (response.getD 3 0) (response.getD 4 0) (response.getD 5 0) }

structure AppConfigJs where
  contractData : Nat
  accountIndex : Nat
  addressIndex : Nat
  version : List Nat
deriving Repr, DecidableEq

/-- The function `getAppConfiguration`, response decoding, in the legacy `Elrond.js`
snapshot (lines 82-92): one-byte indices at offsets 1 and 2, regardless of
the reply length. -/
def getAppConfigurationJs (response : List Nat) : AppConfigJs :=
  { contractData := response.getD 0 0,
    accountIndex := response.getD 1 0,
    addressIndex := response.getD 2 0,
    version := versionString (response.getD 3 0) (response.getD 4 0) (response.getD 5 0) }

/-- The single APDU built by `getAddress` (`Elrond.ts` lines 37-56). -/
def getAddressApdu (account : Int) (index : Nat) (display : Bool) : Apdu :=
  { cla := CLA, ins := 0x03, p1 := if display then 0x01 else 0x00, p2 := 0x00,
    data := int32BE account ++ uint32BE index }

/-- The function `getAddress`: one unchunked command; the reply's first byte is the
address length, the address is the ASCII decoding of the following slice
(`slice` clamps at the reply's end). -/
def getAddress (transport : Apdu → List Nat) (account : Int) (index : Nat)
    (display : Bool) : List Apdu × List Nat :=
  let apdu := getAddressApdu account index display
  let response := transport apdu
  let addressLength := response.getD 0 0
  ([apdu], asciiDecode ((response.drop 1).take addressLength))

/-- The big-endian unsigned 32-bit value of a 4-byte field, as the spec
words it ("big-endian unsigned 32-bit at bytes i..i+3"). -/
def specBeUint32 (bytes : List Nat) : Nat :=
  bytes.getD 0 0 * 16777216 + bytes.getD 1 0 * 65536 + bytes.getD 2 0 * 256 + bytes.getD 3 0

/-! ### Chunking lemmas -/

theorem buildApdus_length_aux (type : Nat) : ∀ (n : Nat) (isFirst : Bool) (msg : List Nat),
    msg.length = n → (buildApdus type isFirst msg).length = (msg.length + 149) / 150 := by
  intro n
  induction n using Nat.strong_induction_on with
  | _ n ih =>
    intro isFirst msg hn
    by_cases h : msg = []
    · subst h; simp [buildApdus_nil]
    · have hl : 0 < msg.length := List.length_pos.mpr h
      have hlt : (msg.drop (if 150 < msg.length then 150 else msg.length)).length < n := by
        rw [List.length_drop]; subst hn; split <;> omega
      rw [buildApdus_cons type isFirst msg h, List.length_cons, ih _ hlt false _ rfl,
        List.length_drop]
      split <;> omega

theorem buildApdus_flatten_aux (type : Nat) : ∀ (n : Nat) (isFirst : Bool) (msg : List Nat),
    msg.length = n → ((buildApdus type isFirst msg).map Apdu.data).flatten = msg := by
  intro n
  induction n using Nat.strong_induction_on with
  | _ n ih =>
    intro isFirst msg hn
    by_cases h : msg = []
    · subst h; simp [buildApdus_nil]
    · have hl : 0 < msg.length := List.length_pos.mpr h
      have hlt : (msg.drop (if 150 < msg.length then 150 else msg.length)).length < n := by
        rw [List.length_drop]; subst hn; split <;> omega
      rw [buildApdus_cons type isFirst msg h]
      simp only [List.map_cons, List.flatten_cons]
      rw [ih _ hlt false _ rfl, List.take_append_drop]

theorem buildApdus_data_le_aux (type : Nat) : ∀ (n : Nat) (isFirst : Bool) (msg : List Nat),
    msg.length = n → ∀ a ∈ buildApdus type isFirst msg, a.data.length ≤ 150 := by
  intro n
  induction n using Nat.strong_induction_on with
  | _ n ih =>
    intro isFirst msg hn a ha
    by_cases h : msg = []
    · subst h; rw [buildApdus_nil] at ha; simp at ha
    · have hl : 0 < msg.length := List.length_pos.mpr h
      have hlt : (msg.drop (if 150 < msg.length then 150 else msg.length)).length < n := by
        rw [List.length_drop]; subst hn; split <;> omega
      rw [buildApdus_cons type isFirst msg h] at ha
      rcases List.mem_cons.mp ha with hhead | htail
      · subst hhead
        simp only [List.length_take]
        split <;> omega
      · exact ih _ hlt false _ rfl a htail

theorem buildApdus_p1_false_aux (type : Nat) : ∀ (n : Nat) (msg : List Nat),
    msg.length = n →
    (buildApdus type false msg).map Apdu.p1 =
      List.replicate (buildApdus type false msg).length 0x80 := by
  intro n
  induction n using Nat.strong_induction_on with
  | _ n ih =>
    intro msg hn
    by_cases h : msg = []
    · subst h; simp [buildApdus_nil]
    · have hl : 0 < msg.length := List.length_pos.mpr h
      have hlt : (msg.drop (if 150 < msg.length then 150 else msg.length)).length < n := by
        rw [List.length_drop]; subst hn; split <;> omega
      rw [buildApdus_cons type false msg h]
      simp only [List.map_cons, List.length_cons, List.replicate_succ, if_neg Bool.false_ne_true]
      rw [ih _ hlt _ rfl]

theorem buildApdus_p1_true (type : Nat) (msg : List Nat) (h : msg ≠ []) :
    (buildApdus type true msg).map Apdu.p1 =
      0x00 :: List.replicate ((buildApdus type true msg).length - 1) 0x80 := by
  rw [buildApdus_cons type true msg h]
  simp only [List.map_cons, List.length_cons, Nat.add_sub_cancel, if_true]
  rw [buildApdus_p1_false_aux type _ _ rfl]

theorem sign_nothing_sent (type : Nat) (transport : Apdu → List Nat) :
    (sign transport [] type).1 = [] := by
  by_cases ht : type ∈ ACTIVE_SIGNERS
  · unfold sign
    rw [if_neg (not_not_intro ht)]
    simp only [buildApdus_nil]
    split
    · rfl
    · split <;> rfl
  · unfold sign
    rw [if_pos ht]

/-- C1: for every payload of length L ≥ 1 the chunking loop in `sign`
produces `ceil(L/150)` frames, each frame payload at most 150 bytes, the
in-order concatenation of the frame payloads is exactly the input, the
first frame carries p1 = 0x00 and every other frame carries p1 = 0x80; a
zero-length payload produces zero frames and `sign` sends no command. -/
theorem sign_chunking (type : Nat) (message : List Nat) (h : 1 ≤ message.length) :
    (buildApdus type true message).length = (message.length + 149) / 150 ∧
    (∀ a ∈ buildApdus type true message, a.data.length ≤ 150) ∧
    ((buildApdus type true message).map Apdu.data).flatten = message ∧
    (buildApdus type true message).map Apdu.p1 =
      0x00 :: List.replicate ((message.length + 149) / 150 - 1) 0x80 ∧
    buildApdus type true [] = [] ∧
    ∀ transport : Apdu → List Nat, (sign transport [] type).1 = [] := by
  have hne : message ≠ [] := by
    intro he; rw [he] at h; simp at h
  refine ⟨buildApdus_length_aux type _ true message rfl,
    buildApdus_data_le_aux type _ true message rfl,
    buildApdus_flatten_aux type _ true message rfl, ?_, buildApdus_nil type true,
    fun transport => sign_nothing_sent type transport⟩
  rw [buildApdus_p1_true type message hne, buildApdus_length_aux type _ true message rfl]

/-- Witness for C1 at a 151-byte payload. -/
theorem sign_chunking_witness :
    (buildApdus 4 true (List.replicate 151 7)).length = ((List.replicate 151 7 : List Nat).length + 149) / 150 ∧
    (∀ a ∈ buildApdus 4 true (List.replicate 151 7), a.data.length ≤ 150) ∧
    ((buildApdus 4 true (List.replicate 151 7)).map Apdu.data).flatten = List.replicate 151 7 ∧
    (buildApdus 4 true (List.replicate 151 7)).map Apdu.p1 =
      0x00 :: List.replicate (((List.replicate 151 7 : List Nat).length + 149) / 150 - 1) 0x80 ∧
    buildApdus 4 true [] = [] ∧
    ∀ transport : Apdu → List Nat, (sign transport [] 4).1 = [] :=
  sign_chunking 4 (List.replicate 151 7) (by simp)

/-! ### Signature decoding -/

theorem sign_eq_plain (transport : Apdu → List Nat) (message : List Nat) (type : Nat)
    (hmem : type ∈ ACTIVE_SIGNERS) (hne9 : type ≠ GET_ADDRESS_AUTH_TOKEN_INS) :
    sign transport message type =
      (buildApdus type true message,
        if (runFrames transport (buildApdus type true message)).length ≠ 67 ∨
            (runFrames transport (buildApdus type true message)).getD 0 0 ≠ 64 then
          Except.error "invalid signature received from ledger device"
        else
          Except.ok (hexEncode (((runFrames transport (buildApdus type true message)).drop 1).take
            ((runFrames transport (buildApdus type true message)).length - 2 - 1)))) := by
  unfold sign
  rw [if_neg (not_not_intro hmem)]
  simp only []
  rw [if_neg hne9]
  split <;> rfl

theorem sign_snd_plain (transport : Apdu → List Nat) (message : List Nat) (type : Nat)
    (hmem : type ∈ ACTIVE_SIGNERS) (hne9 : type ≠ GET_ADDRESS_AUTH_TOKEN_INS) :
    (sign transport message type).2 =
      if (runFrames transport (buildApdus type true message)).length ≠ 67 ∨
          (runFrames transport (buildApdus type true message)).getD 0 0 ≠ 64 then
        Except.error "invalid signature received from ledger device"
      else
        Except.ok (hexEncode (((runFrames transport (buildApdus type true message)).drop 1).take
          ((runFrames transport (buildApdus type true message)).length - 2 - 1))) := by
  rw [sign_eq_plain transport message type hmem hne9]

theorem hexEncode_length (l : List Nat) : (hexEncode l).length = 2 * l.length := by
  induction l with
  | nil => rfl
  | cons a l ih =>
      show (([hexDigitCode (a / 16 % 16), hexDigitCode (a % 16)]) ++ hexEncode l).length =
        2 * (a :: l).length
      rw [List.length_append, ih]
      simp only [List.length_cons, List.length_nil]
      omega

/-- C2: for raw-transaction, hash-transaction and message signing, `sign`
errors exactly when the final reply is not 67 bytes long with byte 0 equal
to 64; otherwise it returns the hex encoding of reply bytes 1..64, which is
128 hex characters long (the 2 trailer bytes are excluded). -/
theorem sign_signature_decode (transport : Apdu → List Nat) (message : List Nat) (type : Nat)
    (htype : type = SIGN_RAW_TX_INS ∨ type = SIGN_MESSAGE_INS ∨ type = SIGN_HASH_TX_INS) :
    ((∃ e, (sign transport message type).2 = Except.error e) ↔
      (runFrames transport (buildApdus type true message)).length ≠ 67 ∨
        (runFrames transport (buildApdus type true message)).getD 0 0 ≠ 64) ∧
    ((runFrames transport (buildApdus type true message)).length = 67 →
      (runFrames transport (buildApdus type true message)).getD 0 0 = 64 →
      (sign transport message type).2 =
        Except.ok (hexEncode
          (((runFrames transport (buildApdus type true message)).drop 1).take 64)) ∧
      (hexEncode
        (((runFrames transport (buildApdus type true message)).drop 1).take 64)).length = 128) := by
  have hmem : type ∈ ACTIVE_SIGNERS := by
    rcases htype with h | h | h <;> subst h <;> decide
  have hne9 : type ≠ GET_ADDRESS_AUTH_TOKEN_INS := by
    rcases htype with h | h | h <;> subst h <;> decide
  have hval := sign_snd_plain transport message type hmem hne9
  by_cases hc : (runFrames transport (buildApdus type true message)).length ≠ 67 ∨
      (runFrames transport (buildApdus type true message)).getD 0 0 ≠ 64
  · refine ⟨⟨fun _ => hc,
      fun _ => ⟨"invalid signature received from ledger device", by rw [hval, if_pos hc]⟩⟩, ?_⟩
    intro h67 h64
    rcases hc with hc | hc
    · exact absurd h67 hc
    · exact absurd h64 hc
  · have hc2 := hc
    push_neg at hc2
    constructor
    · constructor
      · rintro ⟨e, he⟩
        rw [hval, if_neg hc] at he
        simp at he
      · intro hcc
        rcases hcc with hcc | hcc
        · exact absurd hc2.1 hcc
        · exact absurd hc2.2 hcc
    · intro h67 _
      constructor
      · rw [hval, if_neg hc, h67]
      · rw [hexEncode_length, List.length_take, List.length_drop, h67]
        norm_num

/-- Witness for C2: a well-formed 67-byte reply decodes to a 128-character
hex signature. -/
theorem sign_signature_decode_witness :
    ((∃ e, (sign (fun _ => 64 :: (List.replicate 64 7 ++ [144, 0])) [1] 4).2 = Except.error e) ↔
      (runFrames (fun _ => 64 :: (List.replicate 64 7 ++ [144, 0]))
          (buildApdus 4 true [1])).length ≠ 67 ∨
        (runFrames (fun _ => 64 :: (List.replicate 64 7 ++ [144, 0]))
          (buildApdus 4 true [1])).getD 0 0 ≠ 64) ∧
    ((runFrames (fun _ => 64 :: (List.replicate 64 7 ++ [144, 0]))
        (buildApdus 4 true [1])).length = 67 →
      (runFrames (fun _ => 64 :: (List.replicate 64 7 ++ [144, 0]))
        (buildApdus 4 true [1])).getD 0 0 = 64 →
      (sign (fun _ => 64 :: (List.replicate 64 7 ++ [144, 0])) [1] 4).2 =
        Except.ok (hexEncode
          (((runFrames (fun _ => 64 :: (List.replicate 64 7 ++ [144, 0]))
            (buildApdus 4 true [1])).drop 1).take 64)) ∧
      (hexEncode
        (((runFrames (fun _ => 64 :: (List.replicate 64 7 ++ [144, 0]))
          (buildApdus 4 true [1])).drop 1).take 64)).length = 128) :=
  sign_signature_decode (fun _ => 64 :: (List.replicate 64 7 ++ [144, 0])) [1] 4 (Or.inl rfl)

/-- C9: signing an empty payload with any of the `signTransaction` or
`signMessage` instruction codes sends zero frames and fails with the
invalid-signature error. -/
theorem sign_empty_payload (transport : Apdu → List Nat) (type : Nat)
    (htype : type = SIGN_RAW_TX_INS ∨ type = SIGN_MESSAGE_INS ∨ type = SIGN_HASH_TX_INS) :
    sign transport [] type =
      ([], Except.error "invalid signature received from ledger device") := by
  have hmem : type ∈ ACTIVE_SIGNERS := by
    rcases htype with h | h | h <;> subst h <;> decide
  have hne9 : type ≠ GET_ADDRESS_AUTH_TOKEN_INS := by
    rcases htype with h | h | h <;> subst h <;> decide
  rw [sign_eq_plain transport [] type hmem hne9, buildApdus_nil]
  simp [runFrames]

/-- Witness for C9 at instruction 0x04. -/
theorem sign_empty_payload_witness :
    sign (fun _ => 64 :: (List.replicate 64 7 ++ [144, 0])) [] 4 =
      ([], Except.error "invalid signature received from ledger device") :=
  sign_empty_payload (fun _ => 64 :: (List.replicate 64 7 ++ [144, 0])) 4 (Or.inl rfl)

/-- C4: invoking the shared signing path with an instruction code outside
the signing-capable set 0x04, 0x06, 0x07, 0x09 fails with the
invalid-operation error, with zero frames produced and zero transport
invocations. -/
theorem sign_invalid_operation (transport : Apdu → List Nat) (message : List Nat) (type : Nat)
    (h : type ∉ ACTIVE_SIGNERS) :
    sign transport message type =
      ([], Except.error ("invalid sign instruction called: " ++ toString type)) ∧
    ACTIVE_SIGNERS = [0x04, 0x07, 0x06, 0x09] := by
  constructor
  · unfold sign
    rw [if_pos h]
  · rfl

/-- Witness for C4 at instruction code 0x05. -/
theorem sign_invalid_operation_witness :
    sign (fun _ => 64 :: (List.replicate 64 7 ++ [144, 0])) [1, 2] 5 =
      ([], Except.error ("invalid sign instruction called: " ++ toString 5)) ∧
    ACTIVE_SIGNERS = [0x04, 0x07, 0x06, 0x09] :=
  sign_invalid_operation (fun _ => 64 :: (List.replicate 64 7 ++ [144, 0])) [1, 2] 5 (by decide)

/-- C3 (code bug): `handleAuthTokenResponse` guards with `&&`, so a
129-byte reply whose marker byte is not 126 is accepted and decoded, and a
wrong-length reply whose marker byte is 126 is accepted too; the claim
(and the spec) require both to be rejected. -/
theorem handleAuthToken_weak_guard :
    (List.replicate 129 0 : List Nat).length = 129 ∧
    (List.replicate 129 0 : List Nat).getD 0 0 ≠ 126 ∧
    handleAuthTokenResponse (List.replicate 129 0) =
      Except.ok (List.replicate 62 0 ++ 124 :: List.replicate 128 48) ∧
    [126].length ≠ 129 ∧
    handleAuthTokenResponse [126] = Except.ok [124] := by
  exact ⟨by simp, by decide, by rfl, by decide, by rfl⟩

/-! ### Auth-token result decoding -/

theorem sign_snd_auth (transport : Apdu → List Nat) (message : List Nat) :
    (sign transport message GET_ADDRESS_AUTH_TOKEN_INS).2 =
      handleAuthTokenResponse
        (runFrames transport (buildApdus GET_ADDRESS_AUTH_TOKEN_INS true message)) := by
  unfold sign
  rw [if_neg (not_not_intro (by decide : GET_ADDRESS_AUTH_TOKEN_INS ∈ ACTIVE_SIGNERS))]
  simp only []
  rw [if_pos trivial]

theorem getAddressAndSignAuthToken_snd (transport : Apdu → List Nat) (account : Int)
    (index : Nat) (token : List Nat) :
    (getAddressAndSignAuthToken transport account index token).2 =
      match (sign transport (authPayload account index token) GET_ADDRESS_AUTH_TOKEN_INS).2 with
      | Except.error e => Except.error e
      | Except.ok result =>
          Except.ok ((splitOnSep 124 result).getD 0 [], (splitOnSep 124 result).getD 1 []) := by
  cases hsign : (sign transport (authPayload account index token) GET_ADDRESS_AUTH_TOKEN_INS).2 with
  | error e => simp [getAddressAndSignAuthToken, hsign]
  | ok result => simp [getAddressAndSignAuthToken, hsign]

theorem splitOnSep_no_sep (sep : Nat) (s : List Nat) (h : sep ∉ s) :
    splitOnSep sep s = [s] := by
  induction s with
  | nil => rfl
  | cons c rest ih =>
      have hc : c ≠ sep := by rintro rfl; exact h (List.mem_cons_self _ _)
      have hr : sep ∉ rest := fun hm => h (List.mem_cons_of_mem _ hm)
      simp only [splitOnSep, ih hr]
      simp [hc]

theorem splitOnSep_append (sep : Nat) (a s : List Nat) (ha : sep ∉ a) (hs : sep ∉ s) :
    splitOnSep sep (a ++ sep :: s) = [a, s] := by
  induction a with
  | nil =>
      simp only [List.nil_append, splitOnSep, splitOnSep_no_sep sep s hs]
      simp
  | cons c a ih =>
      have hc : c ≠ sep := by rintro rfl; exact ha (List.mem_cons_self _ _)
      have ha' : sep ∉ a := fun hm => ha (List.mem_cons_of_mem _ hm)
      simp only [List.cons_append, splitOnSep, List.append_eq]
      rw [ih ha']
      simp [hc]

theorem hexDigitCode_ne_pipe (n : Nat) (h : n < 16) : hexDigitCode n ≠ 124 := by
  unfold hexDigitCode
  split <;> omega

theorem hexEncode_no_pipe (l : List Nat) : 124 ∉ hexEncode l := by
  induction l with
  | nil => simp [hexEncode]
  | cons a l ih =>
      show 124 ∉ ([hexDigitCode (a / 16 % 16), hexDigitCode (a % 16)] ++ hexEncode l)
      intro hm
      rcases List.mem_append.mp hm with h1 | h2
      · rcases List.mem_cons.mp h1 with h1' | h1''
        · exact hexDigitCode_ne_pipe _ (Nat.mod_lt _ (by omega)) h1'.symm
        · rcases List.mem_cons.mp h1'' with h2' | h2''
          · exact hexDigitCode_ne_pipe _ (Nat.mod_lt _ (by omega)) h2'.symm
          · simp at h2''
      · exact ih h2

/-- C5 (amended): for every 129-byte auth-token reply with byte 0 equal to
126 in which no byte of the 62-byte address field ASCII-decodes to the
pipe delimiter (code unit 124), `getAddressAndSignAuthToken` returns the
ASCII decoding of reply bytes 1..62 as the address and the hex encoding of
the 64 bytes at offsets 63..126 as the signature. -/
theorem getAddressAndSignAuthToken_decode (transport : Apdu → List Nat) (account : Int)
    (index : Nat) (token : List Nat)
    (hlen : (authTokenFinalReply transport account index token).length = 129)
    (_hmark : (authTokenFinalReply transport account index token).getD 0 0 = 126)
    (hpipe : ∀ b ∈ ((authTokenFinalReply transport account index token).drop 1).take 62,
      b % 128 ≠ 124) :
    (getAddressAndSignAuthToken transport account index token).2 =
      Except.ok
        (asciiDecode (((authTokenFinalReply transport account index token).drop 1).take 62),
         hexEncode (((authTokenFinalReply transport account index token).drop 63).take 64)) := by
  unfold authTokenFinalReply at hlen hpipe ⊢
  set R := runFrames transport
    (buildApdus GET_ADDRESS_AUTH_TOKEN_INS true (authPayload account index token)) with hRdef
  have hA : 124 ∉ asciiDecode ((R.drop 1).take 62) := by
    intro hm
    rcases List.mem_map.mp hm with ⟨b, hb, he⟩
    exact hpipe b hb he
  have hS : 124 ∉ hexEncode ((R.drop 63).take 64) := hexEncode_no_pipe _
  have hok : handleAuthTokenResponse R =
      Except.ok (asciiDecode ((R.drop 1).take 62) ++
        124 :: hexEncode ((R.drop 63).take 64)) := by
    unfold handleAuthTokenResponse
    rw [if_neg (by simp [hlen]), hlen]
  rw [getAddressAndSignAuthToken_snd, sign_snd_auth, ← hRdef, hok]
  dsimp only []
  rw [splitOnSep_append 124 _ _ hA hS]
  rfl

/-- Reply used for the C5 counterexample: valid length and marker, but the
first address-field byte is the pipe code unit 124. -/
def cexReply : List Nat :=
  126 :: ((124 :: List.replicate 61 97) ++ (List.replicate 64 1 ++ [0, 0]))

/-- Reply used for the C5 witness: valid length and marker, address field
of 62 ASCII bytes 97. -/
def niceReply : List Nat :=
  126 :: (List.replicate 62 97 ++ (List.replicate 64 1 ++ [0, 0]))

theorem authPayloadSmallFrame :
    buildApdus GET_ADDRESS_AUTH_TOKEN_INS true (authPayload 0 0 [1]) =
      [{ cla := CLA, ins := GET_ADDRESS_AUTH_TOKEN_INS, p1 := 0x00, p2 := 0x00,
         data := authPayload 0 0 [1] }] :=
  buildApdus_small _ _ (by decide) (by decide)

/-- C5 counterexample: a 129-byte reply with marker 126 whose address
field starts with the pipe code unit makes `getAddressAndSignAuthToken`
return an empty address and a signature equal to the rest of the address
field, not the reply's address and signature fields. -/
theorem authToken_delimiter_counterexample :
    cexReply.length = 129 ∧
    cexReply.getD 0 0 = 126 ∧
    (getAddressAndSignAuthToken (fun _ => cexReply) 0 0 [1]).2 =
      Except.ok ([], List.replicate 61 97) ∧
    asciiDecode ((cexReply.drop 1).take 62) ≠ [] ∧
    hexEncode ((cexReply.drop 63).take 64) ≠ List.replicate 61 97 := by
  refine ⟨by decide, by decide, ?_, by decide, by decide⟩
  rw [getAddressAndSignAuthToken_snd, sign_snd_auth, authPayloadSmallFrame]
  rfl

/-- Witness for C5's amended theorem on a well-formed reply. -/
theorem getAddressAndSignAuthToken_decode_witness :
    (getAddressAndSignAuthToken (fun _ => niceReply) 0 0 [1]).2 =
      Except.ok
        (asciiDecode (((authTokenFinalReply (fun _ => niceReply) 0 0 [1]).drop 1).take 62),
         hexEncode (((authTokenFinalReply (fun _ => niceReply) 0 0 [1]).drop 63).take 64)) := by
  have hfr : authTokenFinalReply (fun _ => niceReply) 0 0 [1] = niceReply := by
    unfold authTokenFinalReply
    rw [authPayloadSmallFrame]
    rfl
  exact getAddressAndSignAuthToken_decode (fun _ => niceReply) 0 0 [1]
    (by rw [hfr]; decide) (by rw [hfr]; decide) (by rw [hfr]; decide)

/-! ### App configuration decoding -/

/-- C6: a 6-byte configuration reply decodes through the legacy
`Elrond.js` path with `contractData` = byte 0, `accountIndex` = byte 1,
`addressIndex` = byte 2 and `version` the dotted triple of bytes 3, 4, 5. -/
theorem getAppConfiguration_legacy_decode (b0 b1 b2 b3 b4 b5 : Nat) :
    getAppConfigurationJs [b0, b1, b2, b3, b4, b5] =
      { contractData := b0, accountIndex := b1, addressIndex := b2,
        version := versionString b3 b4 b5 } := rfl

theorem lor_bytes (b0 b1 b2 b3 : Nat) (_h0 : b0 < 256) (h1 : b1 < 256) (h2 : b2 < 256)
    (h3 : b3 < 256) :
    ((b3 ||| b2 <<< 8) ||| b1 <<< 16) ||| b0 <<< 24 =
      b0 * 16777216 + b1 * 65536 + b2 * 256 + b3 := by
  have q8 : (2 : Nat) ^ 8 = 256 := by norm_num
  have q16 : (2 : Nat) ^ 16 = 65536 := by norm_num
  have q24 : (2 : Nat) ^ 24 = 16777216 := by norm_num
  have e1 : b3 ||| b2 <<< 8 = 2 ^ 8 * b2 + b3 := by
    rw [Nat.shiftLeft_eq, Nat.lor_comm, Nat.mul_comm]
    exact (Nat.mul_add_lt_is_or (by rw [q8]; exact h3) b2).symm
  have e2 : (b3 ||| b2 <<< 8) ||| b1 <<< 16 = 2 ^ 16 * b1 + (2 ^ 8 * b2 + b3) := by
    rw [e1, Nat.shiftLeft_eq, Nat.lor_comm, Nat.mul_comm b1 (2 ^ 16)]
    exact (Nat.mul_add_lt_is_or (by rw [q16, q8]; omega) b1).symm
  have e3 : ((b3 ||| b2 <<< 8) ||| b1 <<< 16) ||| b0 <<< 24 =
      2 ^ 24 * b0 + (2 ^ 16 * b1 + (2 ^ 8 * b2 + b3)) := by
    rw [e2, Nat.shiftLeft_eq, Nat.lor_comm, Nat.mul_comm b0 (2 ^ 24)]
    exact (Nat.mul_add_lt_is_or (by rw [q24, q16, q8]; omega) b0).symm
  rw [e3, q8, q16, q24]
  ring

theorem getIntValueFromBytes_eq (b0 b1 b2 b3 : Nat) (h0 : b0 < 256) (h1 : b1 < 256)
    (h2 : b2 < 256) (h3 : b3 < 256) :
    getIntValueFromBytes [b0, b1, b2, b3] =
      if specBeUint32 [b0, b1, b2, b3] < 2147483648 then (specBeUint32 [b0, b1, b2, b3] : Int)
      else (specBeUint32 [b0, b1, b2, b3] : Int) - 4294967296 := by
  have hlt : b0 * 16777216 + b1 * 65536 + b2 * 256 + b3 < 4294967296 := by omega
  show toInt32 (((b3 ||| b2 <<< 8) ||| b1 <<< 16) ||| b0 <<< 24) = _
  rw [lor_bytes b0 b1 b2 b3 h0 h1 h2 h3]
  unfold toInt32
  rw [Nat.mod_eq_of_lt hlt]
  rfl

/-- C7 counterexample: a 14-byte configuration reply whose account-index
field has the top bit set decodes to a negative number, not the big-endian
unsigned 32-bit value the claim states. -/
theorem getAppConfiguration_signed_counterexample :
    ([1, 0, 0, 1, 0, 16, 128, 0, 0, 0, 0, 0, 0, 1] : List Nat).length = 14 ∧
    (getAppConfigurationTs [1, 0, 0, 1, 0, 16, 128, 0, 0, 0, 0, 0, 0, 1]).accountIndex =
      -2147483648 ∧
    specBeUint32 (([1, 0, 0, 1, 0, 16, 128, 0, 0, 0, 0, 0, 0, 1] : List Nat).drop 6 |>.take 4) =
      2147483648 ∧
    (getAppConfigurationTs [1, 0, 0, 1, 0, 16, 128, 0, 0, 0, 0, 0, 0, 1]).accountIndex ≠
      (specBeUint32
        (([1, 0, 0, 1, 0, 16, 128, 0, 0, 0, 0, 0, 0, 1] : List Nat).drop 6 |>.take 4) : Int) :=
  ⟨rfl, by decide, by decide, by decide⟩

/-- C7 (amended): for every 14-byte configuration reply, the decoded
account and address indices are the big-endian 32-bit fields at offsets
6..9 and 10..13 reinterpreted as signed (two's-complement) integers: equal
to the unsigned value when it is below 2^31, and to that value minus 2^32
otherwise. -/
theorem getAppConfiguration_extended_decode
    (c u1 u2 v1 v2 v3 a0 a1 a2 a3 d0 d1 d2 d3 : Nat)
    (ha0 : a0 < 256) (ha1 : a1 < 256) (ha2 : a2 < 256) (ha3 : a3 < 256)
    (hd0 : d0 < 256) (hd1 : d1 < 256) (hd2 : d2 < 256) (hd3 : d3 < 256) :
    (getAppConfigurationTs
        [c, u1, u2, v1, v2, v3, a0, a1, a2, a3, d0, d1, d2, d3]).accountIndex =
      (if specBeUint32 [a0, a1, a2, a3] < 2147483648 then (specBeUint32 [a0, a1, a2, a3] : Int)
       else (specBeUint32 [a0, a1, a2, a3] : Int) - 4294967296) ∧
    (getAppConfigurationTs
        [c, u1, u2, v1, v2, v3, a0, a1, a2, a3, d0, d1, d2, d3]).addressIndex =
      (if specBeUint32 [d0, d1, d2, d3] < 2147483648 then (specBeUint32 [d0, d1, d2, d3] : Int)
       else (specBeUint32 [d0, d1, d2, d3] : Int) - 4294967296) := by
  constructor
  · show getIntValueFromBytes [a0, a1, a2, a3] = _
    exact getIntValueFromBytes_eq a0 a1 a2 a3 ha0 ha1 ha2 ha3
  · show getIntValueFromBytes [d0, d1, d2, d3] = _
    exact getIntValueFromBytes_eq d0 d1 d2 d3 hd0 hd1 hd2 hd3

/-- Witness for C7's amended theorem at the counterexample reply bytes. -/
theorem getAppConfiguration_extended_decode_witness :
    (getAppConfigurationTs [1, 0, 0, 1, 0, 16, 128, 0, 0, 0, 0, 0, 0, 1]).accountIndex =
      (if specBeUint32 [128, 0, 0, 0] < 2147483648 then (specBeUint32 [128, 0, 0, 0] : Int)
       else (specBeUint32 [128, 0, 0, 0] : Int) - 4294967296) ∧
    (getAppConfigurationTs [1, 0, 0, 1, 0, 16, 128, 0, 0, 0, 0, 0, 0, 1]).addressIndex =
      (if specBeUint32 [0, 0, 0, 1] < 2147483648 then (specBeUint32 [0, 0, 0, 1] : Int)
       else (specBeUint32 [0, 0, 0, 1] : Int) - 4294967296) :=
  getAppConfiguration_extended_decode 1 0 0 1 0 16 128 0 0 0 0 0 0 1
    (by decide) (by decide) (by decide) (by decide)
    (by decide) (by decide) (by decide) (by decide)

/-! ### getAddress -/

theorem specBeUint32_uint32BE (n : Nat) (h : n < 4294967296) :
    specBeUint32 (uint32BE n) = n := by
  show n / 16777216 % 256 * 16777216 + n / 65536 % 256 * 65536 + n / 256 % 256 * 256 + n % 256
    = n
  omega

theorem toInt32_int32BE (account : Int) (h1 : -2147483648 ≤ account)
    (h2 : account < 2147483648) :
    toInt32 (specBeUint32 (int32BE account)) = account := by
  have hm0 : (0 : Int) ≤ account.emod 4294967296 := Int.emod_nonneg _ (by norm_num)
  have hm1 : account.emod 4294967296 < 4294967296 := Int.emod_lt_of_pos _ (by norm_num)
  have hdm : 4294967296 * (account.ediv 4294967296) + account.emod 4294967296 = account :=
    Int.ediv_add_emod account 4294967296
  rw [int32BE, specBeUint32_uint32BE _ (by omega)]
  unfold toInt32
  split <;> omega

/-- C8: `getAddress` sends exactly one command: class 0xED, instruction
0x03, `p1` = 0x01 when display else 0x00, `p2` = 0x00, with an 8-byte
payload holding the account as big-endian signed 32-bit at offset 0 and
the index as big-endian unsigned 32-bit at offset 4; it decodes the reply
by taking byte 0 as the address length n and returning the ASCII decoding
of the next n bytes. -/
theorem getAddress_protocol (transport : Apdu → List Nat) (account : Int) (index : Nat)
    (display : Bool) (hacc1 : -2147483648 ≤ account) (hacc2 : account < 2147483648)
    (hidx : index < 4294967296) :
    (getAddress transport account index display).1 = [getAddressApdu account index display] ∧
    getAddressApdu account index display =
      { cla := 0xed, ins := 0x03, p1 := if display then 0x01 else 0x00, p2 := 0x00,
        data := int32BE account ++ uint32BE index } ∧
    (int32BE account ++ uint32BE index).length = 8 ∧
    toInt32 (specBeUint32 (int32BE account)) = account ∧
    specBeUint32 (uint32BE index) = index ∧
    (getAddress transport account index display).2 =
      asciiDecode (((transport (getAddressApdu account index display)).drop 1).take
        ((transport (getAddressApdu account index display)).getD 0 0)) :=
  ⟨rfl, rfl, rfl, toInt32_int32BE account hacc1 hacc2, specBeUint32_uint32BE index hidx, rfl⟩

/-- Witness for C8 at account -1, index 5, display on. -/
theorem getAddress_protocol_witness :
    (getAddress (fun _ => [2, 104, 105, 7]) (-1) 5 true).1 =
      [getAddressApdu (-1) 5 true] ∧
    getAddressApdu (-1) 5 true =
      { cla := 0xed, ins := 0x03, p1 := if true then 0x01 else 0x00, p2 := 0x00,
        data := int32BE (-1) ++ uint32BE 5 } ∧
    (int32BE (-1) ++ uint32BE 5).length = 8 ∧
    toInt32 (specBeUint32 (int32BE (-1))) = -1 ∧
    specBeUint32 (uint32BE 5) = 5 ∧
    (getAddress (fun _ => [2, 104, 105, 7]) (-1) 5 true).2 =
      asciiDecode ((((fun _ => [2, 104, 105, 7]) (getAddressApdu (-1) 5 true) : List Nat).drop 1).take
        (((fun _ => [2, 104, 105, 7]) (getAddressApdu (-1) 5 true) : List Nat).getD 0 0)) :=
  getAddress_protocol (fun _ => [2, 104, 105, 7]) (-1) 5 true
    (by decide) (by decide) (by decide)

/-- C10: `getAddress` is total on malformed replies: when the declared
address length exceeds the remaining reply bytes, the slice clamps to the
reply's end and the ASCII decoding of every byte after the first is
returned, with no error raised. -/
theorem getAddress_clamped_decode (transport : Apdu → List Nat) (account : Int) (index : Nat)
    (display : Bool) (b : Nat) (rest : List Nat)
    (hresp : transport (getAddressApdu account index display) = b :: rest)
    (hover : rest.length < b) :
    (getAddress transport account index display).2 = asciiDecode rest := by
  show asciiDecode (((transport (getAddressApdu account index display)).drop 1).take
    ((transport (getAddressApdu account index display)).getD 0 0)) = asciiDecode rest
  rw [hresp]
  simp [List.take_of_length_le (Nat.le_of_lt hover)]

/-- Witness for C10: declared length 5 with only 2 remaining bytes. -/
theorem getAddress_clamped_decode_witness :
    (getAddress (fun _ => [5, 104, 105]) 0 0 false).2 = asciiDecode [104, 105] :=
  getAddress_clamped_decode (fun _ => [5, 104, 105]) 0 0 false 5 [104, 105] rfl (by decide)

end Elrond
